import Mathlib

/-!
Shallow embedding of the profile route handlers of src/routes/api/profile.js
(DevConnector). The document store is a list of documents per collection and
each HTTP handler is a function from the store and the request data to a
response together with the store after the call. String operations of the
JavaScript source (split, trim, lexicographic comparison) are modelled over
the character list of a string so every definition is kernel-computable.
-/

namespace DevConnector

/-- Splits a character list at every occurrence of the separator, keeping
empty segments, as JavaScript String.prototype.split does with a
one-character separator string. -/
def splitChar (c : Char) : List Char → List (List Char)
  | [] => [[]]
  | x :: xs =>
    match splitChar c xs with
    | [] => if x = c then [[], []] else [[x]]
    | y :: ys => if x = c then [] :: y :: ys else (x :: y) :: ys

/-- JavaScript s.split(c) for a one-character separator. -/
def jsSplit (s : String) (c : Char) : List String :=
  (splitChar c s.data).map (fun l => String.mk l)

/-- Removes whitespace from both ends of a character list. -/
def trimList (l : List Char) : List Char :=
  ((l.dropWhile Char.isWhitespace).reverse.dropWhile Char.isWhitespace).reverse

/-- JavaScript s.trim(). -/
def jsTrim (s : String) : String := String.mk (trimList s.data)

/-- JavaScript string comparison a less than b: lexicographic on the
character sequences. -/
def jsLt (a b : String) : Bool := decide (a.data < b.data)

/-- Whether p is a prefix of s. -/
def strStartsWith (s p : String) : Bool := p.data.isPrefixOf s.data

/-- Drops the first n characters of s. -/
def strDrop (s : String) (n : Nat) : String := String.mk (s.data.drop n)

/-- Modelled from the spec: the external normalize-url package (required at
src/routes/api/profile.js line 9) is not part of this repository; the spec
describes URL normalization as transforming a user-supplied URL string into
a canonical absolute form with a forced HTTPS scheme. The model removes an
existing http or https scheme and prefixes the https scheme. -/
def normalizeUrl (s : String) : String :=
  "https://" ++
    (if strStartsWith s "https://" then strDrop s 8
     else if strStartsWith s "http://" then strDrop s 7
     else s)

/-- One experience entry of a Profile document; the fields follow the newExp
object built at src/routes/api/profile.js lines 210-218, plus the generated
subdocument id. Since from is a Lean keyword the two date fields are called
fromDate and toDate. -/
structure Experience where
  id : String
  title : String
  company : String
  location : Option String
  fromDate : String
  toDate : Option String
  current : Option Bool
  description : Option String
  deriving Repr, DecidableEq

/-- One education entry of a Profile document, following the newEdu object
built at src/routes/api/profile.js lines 289-297. -/
structure Education where
  id : String
  school : String
  degree : String
  fieldofstudy : String
  fromDate : String
  toDate : Option String
  current : Option Bool
  description : Option String
  deriving Repr, DecidableEq

/-- The social subdocument: five optional URL fields. -/
structure Social where
  youtube : Option String
  twitter : Option String
  instagram : Option String
  linkedin : Option String
  facebook : Option String
  deriving Repr, DecidableEq

/-- A Profile document, with the fields the handlers of profile.js read or
write. An Option field distinguishes an absent value. -/
structure Profile where
  user : String
  website : String
  company : Option String
  location : Option String
  status : String
  skills : List String
  bio : Option String
  githubusername : Option String
  experience : List Experience
  education : List Education
  social : Social
  deriving Repr, DecidableEq

/-- A User document (only its id matters to these routes). -/
structure User where
  id : String
  deriving Repr, DecidableEq

/-- A Post document: its id and its owning user. -/
structure Post where
  id : String
  user : String
  deriving Repr, DecidableEq

/-- The document store of the three collections the delete route touches. -/
structure Store where
  users : List User
  profiles : List Profile
  posts : List Post
  deriving Repr, DecidableEq

/-- An HTTP response reduced to its status code and message body. -/
structure Response where
  status : Nat
  msg : String
  deriving Repr, DecidableEq

/-- Profile.findOne with filter user equal to uid: the first stored Profile
document owned by uid. -/
def findProfile (ps : List Profile) (uid : String) : Option Profile :=
  ps.find? (fun p => p.user == uid)

/-- Number of stored Profile documents owned by uid. -/
def profileCount (ps : List Profile) (uid : String) : Nat :=
  ps.countP (fun p => p.user == uid)

/-- The skills value of a POST api/profile body: either a JSON array of
strings or a single string, discriminated by the Array.isArray test at
src/routes/api/profile.js line 74. -/
inductive SkillsInput
  | asList (l : List String)
  | asString (s : String)
  deriving Repr, DecidableEq

/-- Request body of POST api/profile. Option models presence of a key in
the JSON body; company, location, bio and githubusername are the rest
fields the handler spreads through unchanged. -/
structure ProfileInput where
  status : String
  skills : SkillsInput
  website : Option String
  youtube : Option String
  twitter : Option String
  instagram : Option String
  linkedin : Option String
  facebook : Option String
  company : Option String
  location : Option String
  bio : Option String
  githubusername : Option String
  deriving Repr, DecidableEq

/-- website member of profileFields (profile.js lines 70-73): a present
non-empty website is normalized with forceHttps; an absent or empty website
(both falsy) stores the empty string. -/
def websiteField : Option String → String
  | some w => if w == "" then "" else normalizeUrl w
  | none => ""

/-- skills member of profileFields (profile.js lines 74-76): an array is
kept as is; a string is split on commas and each piece is trimmed and then
prefixed with one space. -/
def skillsField : SkillsInput → List String
  | SkillsInput.asList l => l
  | SkillsInput.asString s => (jsSplit s ',').map (fun skill => " " ++ jsTrim skill)

/-- Normalization of one social field (profile.js lines 90-93): only a
present value of positive length is normalized; an absent key stays absent
and an empty string stays empty. -/
def socialField : Option String → Option String
  | some v => if v.length > 0 then some (normalizeUrl v) else some v
  | none => none

/-- The socialFields object of profile.js lines 81-93. -/
def buildSocial (i : ProfileInput) : Social :=
  { youtube := socialField i.youtube,
    twitter := socialField i.twitter,
    instagram := socialField i.instagram,
    linkedin := socialField i.linkedin,
    facebook := socialField i.facebook }

/-- The profileFields update document built at profile.js lines 68-95: the
keys user, website, skills, status and social are always present; each rest
key is present exactly when it was in the request body. -/
structure ProfileFields where
  user : String
  website : String
  skills : List String
  status : String
  company : Option String
  location : Option String
  bio : Option String
  githubusername : Option String
  social : Social
  deriving Repr, DecidableEq

/-- Builds profileFields from the authenticated user id and the body. -/
def buildProfileFields (uid : String) (i : ProfileInput) : ProfileFields :=
  { user := uid,
    website := websiteField i.website,
    skills := skillsField i.skills,
    status := i.status,
    company := i.company,
    location := i.location,
    bio := i.bio,
    githubusername := i.githubusername,
    social := buildSocial i }

/-- Effect of the set update operator with profileFields on one document:
every key present in profileFields is overwritten, keys absent from it are
kept unchanged. -/
def applySet (f : ProfileFields) (p : Profile) : Profile :=
  { user := f.user,
    website := f.website,
    skills := f.skills,
    status := f.status,
    company := match f.company with | some c => some c | none => p.company,
    location := match f.location with | some c => some c | none => p.location,
    bio := match f.bio with | some c => some c | none => p.bio,
    githubusername :=
      match f.githubusername with | some c => some c | none => p.githubusername,
    experience := p.experience,
    education := p.education,
    social := f.social }

/-- A fresh Profile document before the update is applied on insert: schema
defaults for every field (the setDefaultsOnInsert option). -/
def emptyProfile (uid : String) : Profile :=
  { user := uid, website := "", company := none, location := none,
    status := "", skills := [], bio := none, githubusername := none,
    experience := [], education := [],
    social := ⟨none, none, none, none, none⟩ }

/-- Profile.findOneAndUpdate with filter user equal to uid, a set update of
profileFields, and the new and upsert options (profile.js lines 99-107):
updates the first matching document in place, or inserts a new one when no
document matches; returns the updated document and the updated collection. -/
def profileUpsert (ps : List Profile) (uid : String) (f : ProfileFields) :
    Profile × List Profile :=
  match ps with
  | [] => (applySet f (emptyProfile uid), [applySet f (emptyProfile uid)])
  | p :: rest =>
    if p.user == uid then (applySet f p, applySet f p :: rest)
    else
      let r := profileUpsert rest uid f
      (r.1, p :: r.2)

/-- notEmpty check on the skills value. -/
def skillsNotEmpty : SkillsInput → Bool
  | SkillsInput.asList l => !l.isEmpty
  | SkillsInput.asString s => s != ""

/-- Route validators of POST api/profile (profile.js lines 45-46): status
and skills are required non-empty. -/
def validUpsertInput (i : ProfileInput) : Bool :=
  (i.status != "") && skillsNotEmpty i.skills

/-- Outcome of POST api/profile: 200 with the stored document, or a 400
validation error with the structured error list. -/
inductive UpsertResult
  | json (p : Profile)
  | validationError
  deriving Repr, DecidableEq

/-- Handler of POST api/profile (profile.js lines 40-114). -/
def upsertProfileHandler (ps : List Profile) (uid : String) (i : ProfileInput) :
    UpsertResult × List Profile :=
  if validUpsertInput i then
    let r := profileUpsert ps uid (buildProfileFields uid i)
    (UpsertResult.json r.1, r.2)
  else (UpsertResult.validationError, ps)

/-- Body of PUT api/profile/experience. -/
structure ExpRequest where
  title : String
  company : String
  location : Option String
  fromDate : String
  toDate : Option String
  current : Option Bool
  description : Option String
  deriving Repr, DecidableEq

/-- Body of PUT api/profile/education. -/
structure EduRequest where
  school : String
  degree : String
  fieldofstudy : String
  fromDate : String
  toDate : Option String
  current : Option Bool
  description : Option String
  deriving Repr, DecidableEq

/-- Cross-field validator at profile.js lines 186-190 and 265-269: when the
to value is truthy (present and non-empty) the from value must compare
smaller than it; otherwise the check passes. -/
def fromBeforeToOk (fromDate : String) (toDate : Option String) : Bool :=
  match toDate with
  | some t => if t == "" then true else jsLt fromDate t
  | none => true

/-- Validators of PUT api/profile/experience (lines 184-191). -/
def validExpRequest (r : ExpRequest) : Bool :=
  (r.title != "") && (r.company != "") && (r.fromDate != "") &&
    fromBeforeToOk r.fromDate r.toDate

/-- Validators of PUT api/profile/education (lines 262-269). -/
def validEduRequest (r : EduRequest) : Bool :=
  (r.school != "") && (r.degree != "") && (r.fieldofstudy != "") &&
    (r.fromDate != "") && fromBeforeToOk r.fromDate r.toDate

/-- The newExp object of lines 210-218 with the generated subdocument id. -/
def mkExperience (eid : String) (r : ExpRequest) : Experience :=
  { id := eid, title := r.title, company := r.company, location := r.location,
    fromDate := r.fromDate, toDate := r.toDate, current := r.current,
    description := r.description }

/-- The newEdu object of lines 289-297 with the generated subdocument id. -/
def mkEducation (eid : String) (r : EduRequest) : Education :=
  { id := eid, school := r.school, degree := r.degree,
    fieldofstudy := r.fieldofstudy, fromDate := r.fromDate, toDate := r.toDate,
    current := r.current, description := r.description }

/-- profile.save() after an in-memory mutation: the first stored document of
the same user is replaced by the mutated document. -/
def saveProfile (ps : List Profile) (q : Profile) : List Profile :=
  match ps with
  | [] => [q]
  | p :: rest => if p.user == q.user then q :: rest else p :: saveProfile rest q

/-- Outcome of the experience and education mutation routes: 200 with the
updated Profile, 400 validation error, or the catch-all 500. -/
inductive MutResult
  | json (p : Profile)
  | validationError
  | serverError
  deriving Repr, DecidableEq

/-- Handler of PUT api/profile/experience (profile.js lines 179-233). When
no Profile exists for the user, reading the experience field of null throws
inside the try block and the catch answers 500. -/
def addExperienceHandler (ps : List Profile) (uid : String) (eid : String)
    (r : ExpRequest) : MutResult × List Profile :=
  if validExpRequest r then
    match findProfile ps uid with
    | none => (MutResult.serverError, ps)
    | some p =>
      let p1 := { p with experience := mkExperience eid r :: p.experience }
      (MutResult.json p1, saveProfile ps p1)
  else (MutResult.validationError, ps)

/-- Handler of PUT api/profile/education (profile.js lines 257-312). -/
def addEducationHandler (ps : List Profile) (uid : String) (eid : String)
    (r : EduRequest) : MutResult × List Profile :=
  if validEduRequest r then
    match findProfile ps uid with
    | none => (MutResult.serverError, ps)
    | some p =>
      let p1 := { p with education := mkEducation eid r :: p.education }
      (MutResult.json p1, saveProfile ps p1)
  else (MutResult.validationError, ps)

/-- Handler of DELETE api/profile/experience/:experience_id (profile.js
lines 238-252): keeps exactly the entries whose id differs from the path
parameter, then saves and answers 200 with the updated document. -/
def removeExperienceHandler (ps : List Profile) (uid : String)
    (entryId : String) : MutResult × List Profile :=
  match findProfile ps uid with
  | none => (MutResult.serverError, ps)
  | some p =>
    let p1 := { p with experience := p.experience.filter (fun e => e.id != entryId) }
    (MutResult.json p1, saveProfile ps p1)

/-- Handler of DELETE api/profile/education/:education_id (profile.js lines
317-331). -/
def removeEducationHandler (ps : List Profile) (uid : String)
    (entryId : String) : MutResult × List Profile :=
  match findProfile ps uid with
  | none => (MutResult.serverError, ps)
  | some p =>
    let p1 := { p with education := p.education.filter (fun e => e.id != entryId) }
    (MutResult.json p1, saveProfile ps p1)

/-- Modelled from the spec: a well-formed store identifier (a Mongo
ObjectId, cast by the database driver outside this repository) is a 24
character hexadecimal string; any other id string makes findOne throw a
cast error whose kind field is ObjectId. -/
def wellFormedId (s : String) : Bool :=
  (s.length == 24) &&
    s.data.all (fun c => c.isDigit || ('a' ≤ c && c ≤ 'f') || ('A' ≤ c && c ≤ 'F'))

/-- Outcome of GET api/profile/user/:user_id. -/
inductive GetResult
  | json (p : Profile)
  | err (status : Nat) (msg : String)
  deriving Repr, DecidableEq

/-- Handler of GET api/profile/user/:user_id (profile.js lines 135-153): a
cast error on the id lands in the catch, whose ObjectId branch answers
exactly like the missing-profile branch of the try. -/
def getProfileByUserId (ps : List Profile) (targetUserId : String) : GetResult :=
  if wellFormedId targetUserId then
    match findProfile ps targetUserId with
    | none => GetResult.err 404 "Profile not found"
    | some p => GetResult.json p
  else GetResult.err 404 "Profile not found"

/-- Outcome of the outbound axios call of GET api/profile/github/:username;
the repository list is an opaque payload here, and the failure detail
stands for a network error, a rate-limit answer or an unknown user. -/
inductive GithubOutcome
  | ok (repos : List String)
  | failed (detail : String)
  deriving Repr, DecidableEq

/-- Response of GET api/profile/github/:username. -/
inductive GithubResult
  | json (repos : List String)
  | err (status : Nat) (msg : String)
  deriving Repr, DecidableEq

/-- Handler of GET api/profile/github/:username (profile.js lines 336-358):
the data of a successful call is passed through; any rejection lands in the
catch, which answers 500 with a fixed message. -/
def listGithubRepos (outcome : GithubOutcome) : GithubResult :=
  match outcome with
  | GithubOutcome.ok repos => GithubResult.json repos
  | GithubOutcome.failed _ => GithubResult.err 500 "No GitHub profile found"

/-- The require statements of src/routes/api/profile.js (lines 1-13) bind
express, axios, config, auth, express-validator, normalize-url, Profile,
User and bcryptjs; the file contains no binding for the Post model. -/
def postModelInScope : Bool := false

/-- Post.deleteMany with filter user equal to uid. -/
def deletePostsOf (posts : List Post) (uid : String) : List Post :=
  posts.filter (fun p => p.user != uid)

/-- Profile.findOneAndRemove with filter user equal to uid: removes the
first matching document. -/
def removeProfileOf : List Profile → String → List Profile
  | [], _ => []
  | p :: rest, uid => if p.user == uid then rest else p :: removeProfileOf rest uid

/-- User.findOneAndRemove with filter id equal to uid. -/
def removeUserOf : List User → String → List User
  | [], _ => []
  | u :: rest, uid => if u.id == uid then rest else u :: removeUserOf rest uid

/-- Handler of DELETE api/profile (profile.js lines 158-174). The first
element of the Promise.all array evaluates the identifier Post; since
profile.js never requires the Post model, that evaluation throws a
ReferenceError before any removal starts, and the catch answers 500 Server
Error with the store untouched. The then branch is the behaviour the route
would have if the Post model were in scope. -/
def deleteOwnProfile (s : Store) (uid : String) : Response × Store :=
  if postModelInScope then
    (⟨200, "User has been deleted"⟩,
      { users := removeUserOf s.users uid,
        profiles := removeProfileOf s.profiles uid,
        posts := deletePostsOf s.posts uid })
  else (⟨500, "Server Error"⟩, s)

end DevConnector

namespace DevConnector

theorem findProfile_eq_user {ps : List Profile} {uid : String} {p : Profile}
    (h : findProfile ps uid = some p) : p.user = uid := by
  have h' : ps.find? (fun q => q.user == uid) = some p := h
  have := List.find?_some h'
  simpa using this

theorem profileUpsert_fst (ps : List Profile) (uid : String) (f : ProfileFields) :
    ∃ p0, (profileUpsert ps uid f).1 = applySet f p0 := by
  induction ps with
  | nil => exact ⟨emptyProfile uid, rfl⟩
  | cons p rest ih =>
    by_cases h : p.user = uid
    · exact ⟨p, by simp [profileUpsert, h]⟩
    · obtain ⟨p0, hp0⟩ := ih
      exact ⟨p0, by simp [profileUpsert, h, hp0]⟩

theorem findProfile_profileUpsert (ps : List Profile) (uid : String)
    (f : ProfileFields) (hf : f.user = uid) :
    findProfile (profileUpsert ps uid f).2 uid = some (profileUpsert ps uid f).1 := by
  induction ps with
  | nil => simp [profileUpsert, findProfile, applySet, hf]
  | cons p rest ih =>
    by_cases h : p.user = uid
    · simp [profileUpsert, findProfile, applySet, h, hf]
    · simpa [profileUpsert, findProfile, h] using ih

theorem profileCount_cons (p : Profile) (rest : List Profile) (v : String) :
    profileCount (p :: rest) v =
      profileCount rest v + (if p.user = v then 1 else 0) := by
  simp [profileCount, List.countP_cons]

theorem profileCount_profileUpsert_of_none (ps : List Profile) (uid v : String)
    (f : ProfileFields) (hf : f.user = uid) (hc : profileCount ps uid = 0) :
    profileCount (profileUpsert ps uid f).2 v =
      profileCount ps v + (if uid = v then 1 else 0) := by
  induction ps with
  | nil => simp [profileUpsert, profileCount, List.countP_cons, applySet, hf]
  | cons p rest ih =>
    rw [profileCount_cons] at hc
    have hp : ¬ p.user = uid := by
      intro h
      rw [if_pos h] at hc
      omega
    have hr : profileCount rest uid = 0 := by
      rw [if_neg hp] at hc
      omega
    have hup : (profileUpsert (p :: rest) uid f).2 =
        p :: (profileUpsert rest uid f).2 := by
      simp [profileUpsert, hp]
    rw [hup, profileCount_cons, profileCount_cons, ih hr]
    omega

theorem profileCount_profileUpsert_of_match (ps : List Profile) (uid v : String)
    (f : ProfileFields) (hf : f.user = uid) (hc : profileCount ps uid ≠ 0) :
    profileCount (profileUpsert ps uid f).2 v = profileCount ps v := by
  induction ps with
  | nil => simp [profileCount] at hc
  | cons p rest ih =>
    by_cases hp : p.user = uid
    · have hup : (profileUpsert (p :: rest) uid f).2 = applySet f p :: rest := by
        simp [profileUpsert, hp]
      have huser : (applySet f p).user = p.user := by
        simp [applySet, hf, hp]
      rw [hup, profileCount_cons, profileCount_cons, huser]
    · have hr : profileCount rest uid ≠ 0 := by
        rw [profileCount_cons, if_neg hp] at hc
        simpa using hc
      have hup : (profileUpsert (p :: rest) uid f).2 =
          p :: (profileUpsert rest uid f).2 := by
        simp [profileUpsert, hp]
      rw [hup, profileCount_cons, profileCount_cons, ih hr]

theorem length_profileUpsert_of_match (ps : List Profile) (uid : String)
    (f : ProfileFields) (hc : profileCount ps uid ≠ 0) :
    (profileUpsert ps uid f).2.length = ps.length := by
  induction ps with
  | nil => simp [profileCount] at hc
  | cons p rest ih =>
    by_cases hp : p.user = uid
    · have hup : (profileUpsert (p :: rest) uid f).2 = applySet f p :: rest := by
        simp [profileUpsert, hp]
      simp [hup]
    · have hr : profileCount rest uid ≠ 0 := by
        rw [profileCount_cons, if_neg hp] at hc
        simpa using hc
      have hup : (profileUpsert (p :: rest) uid f).2 =
          p :: (profileUpsert rest uid f).2 := by
        simp [profileUpsert, hp]
      simp [hup, ih hr]

theorem findProfile_saveProfile (ps : List Profile) (q : Profile) :
    findProfile (saveProfile ps q) q.user = some q := by
  induction ps with
  | nil => simp [saveProfile, findProfile]
  | cons p rest ih =>
    by_cases h : p.user = q.user
    · simp [saveProfile, findProfile, h]
    · simpa [saveProfile, findProfile, h] using ih

end DevConnector

namespace DevConnector

/-- A valid upsert body used by several witnesses: required fields present,
website given with an http scheme. -/
def upsertInput0 : ProfileInput :=
  { status := "dev", skills := SkillsInput.asString "go, rust",
    website := some "http://example.com", youtube := none, twitter := none,
    instagram := none, linkedin := none, facebook := none, company := none,
    location := none, bio := none, githubusername := none }

/-- C2: upsert-profile is idempotent under identical input: starting from a
store holding at most one Profile per user, two calls with the same user
and fields leave exactly one stored Profile for that user, the second call
updates in place (the collection does not grow), and the store still holds
at most one Profile per user. -/
theorem upsert_profile_idempotent (ps : List Profile) (uid : String)
    (i : ProfileInput) (hv : validUpsertInput i = true)
    (hinv : ∀ v, profileCount ps v ≤ 1) :
    profileCount (upsertProfileHandler (upsertProfileHandler ps uid i).2 uid i).2 uid = 1 ∧
    (upsertProfileHandler (upsertProfileHandler ps uid i).2 uid i).2.length =
      (upsertProfileHandler ps uid i).2.length ∧
    (∀ v, profileCount (upsertProfileHandler (upsertProfileHandler ps uid i).2 uid i).2 v ≤ 1) := by
  have hf : (buildProfileFields uid i).user = uid := rfl
  have h1 : (upsertProfileHandler ps uid i).2 =
      (profileUpsert ps uid (buildProfileFields uid i)).2 := by
    simp [upsertProfileHandler, hv]
  have hc1 : profileCount (profileUpsert ps uid (buildProfileFields uid i)).2 uid = 1 := by
    by_cases hc : profileCount ps uid = 0
    · rw [profileCount_profileUpsert_of_none ps uid uid _ hf hc, hc]
      simp
    · have hone : profileCount ps uid = 1 := by
        have := hinv uid
        omega
      rw [profileCount_profileUpsert_of_match ps uid uid _ hf hc, hone]
  have hinv1 : ∀ v, profileCount (profileUpsert ps uid (buildProfileFields uid i)).2 v ≤ 1 := by
    intro v
    by_cases hc : profileCount ps uid = 0
    · rw [profileCount_profileUpsert_of_none ps uid v _ hf hc]
      by_cases hv2 : uid = v
      · rw [if_pos hv2]
        subst hv2
        omega
      · rw [if_neg hv2]
        have := hinv v
        omega
    · rw [profileCount_profileUpsert_of_match ps uid v _ hf hc]
      exact hinv v
  have h2 : (upsertProfileHandler (profileUpsert ps uid (buildProfileFields uid i)).2 uid i).2 =
      (profileUpsert (profileUpsert ps uid (buildProfileFields uid i)).2 uid
        (buildProfileFields uid i)).2 := by
    simp [upsertProfileHandler, hv]
  refine ⟨?_, ?_, ?_⟩
  · rw [h1, h2, profileCount_profileUpsert_of_match _ uid uid _ hf (by omega), hc1]
  · rw [h1, h2, length_profileUpsert_of_match _ uid _ (by omega)]
  · intro v
    rw [h1, h2, profileCount_profileUpsert_of_match _ uid v _ hf (by omega)]
    exact hinv1 v

theorem upsert_profile_idempotent_witness :
    validUpsertInput upsertInput0 = true ∧
    (∀ v, profileCount ([] : List Profile) v ≤ 1) ∧
    (profileCount
        (upsertProfileHandler (upsertProfileHandler [] "u1" upsertInput0).2 "u1" upsertInput0).2
        "u1" = 1 ∧
      (upsertProfileHandler (upsertProfileHandler [] "u1" upsertInput0).2 "u1" upsertInput0).2.length =
        (upsertProfileHandler [] "u1" upsertInput0).2.length ∧
      (∀ v, profileCount
        (upsertProfileHandler (upsertProfileHandler [] "u1" upsertInput0).2 "u1" upsertInput0).2
        v ≤ 1)) :=
  ⟨by decide, fun v => by simp [profileCount],
    upsert_profile_idempotent [] "u1" upsertInput0 (by decide)
      (fun v => by simp [profileCount])⟩

end DevConnector

namespace DevConnector

/-- C3: for every valid upsert-profile input whose website is a non-empty
string, the website stored in (and returned as) the resulting Profile has
an https scheme regardless of the scheme of the input; an empty-string
website is stored as the empty string. -/
theorem website_forced_https (ps : List Profile) (uid : String)
    (i : ProfileInput) (w : String) (hv : validUpsertInput i = true)
    (hw : i.website = some w) :
    ∃ q, (upsertProfileHandler ps uid i).1 = UpsertResult.json q ∧
      findProfile (upsertProfileHandler ps uid i).2 uid = some q ∧
      (w ≠ "" → ∃ t, q.website = "https://" ++ t) ∧
      (w = "" → q.website = "") := by
  have hf : (buildProfileFields uid i).user = uid := rfl
  obtain ⟨p0, hp0⟩ := profileUpsert_fst ps uid (buildProfileFields uid i)
  refine ⟨(profileUpsert ps uid (buildProfileFields uid i)).1, ?_, ?_, ?_, ?_⟩
  · simp [upsertProfileHandler, hv]
  · have h2 : (upsertProfileHandler ps uid i).2 =
        (profileUpsert ps uid (buildProfileFields uid i)).2 := by
      simp [upsertProfileHandler, hv]
    rw [h2]
    exact findProfile_profileUpsert ps uid _ hf
  · intro hne
    refine ⟨if strStartsWith w "https://" then strDrop w 8
      else if strStartsWith w "http://" then strDrop w 7 else w, ?_⟩
    rw [hp0]
    show (buildProfileFields uid i).website = _
    simp [buildProfileFields, websiteField, hw, hne, normalizeUrl]
  · intro he
    rw [hp0]
    show (buildProfileFields uid i).website = ""
    simp [buildProfileFields, websiteField, hw, he]

theorem website_forced_https_witness :
    validUpsertInput upsertInput0 = true ∧
    upsertInput0.website = some "http://example.com" ∧
    (∃ q, (upsertProfileHandler [] "u1" upsertInput0).1 = UpsertResult.json q ∧
      findProfile (upsertProfileHandler [] "u1" upsertInput0).2 "u1" = some q ∧
      ("http://example.com" ≠ "" → ∃ t, q.website = "https://" ++ t) ∧
      ("http://example.com" = "" → q.website = "")) :=
  ⟨by decide, rfl,
    website_forced_https [] "u1" upsertInput0 "http://example.com" (by decide) rfl⟩

/-- A valid upsert body whose skills value is the comma-separated string of
the spec scenario. -/
def skillsCsvInput : ProfileInput :=
  { status := "dev", skills := SkillsInput.asString "a, b , c",
    website := none, youtube := none, twitter := none, instagram := none,
    linkedin := none, facebook := none, company := none, location := none,
    bio := none, githubusername := none }

/-- Returned document of an upsert outcome, when there is one. -/
def upsertJson : UpsertResult → Option Profile
  | UpsertResult.json p => some p
  | UpsertResult.validationError => none

/-- C4 counterexample: skills given as the string of the spec scenario is
stored as a 3-element list whose elements carry a prepended space, not as
the fully trimmed list the claim states. -/
theorem skills_csv_counterexample :
    (upsertJson (upsertProfileHandler [] "u1" skillsCsvInput).1).map Profile.skills =
      some [" a", " b", " c"] ∧
    (upsertJson (upsertProfileHandler [] "u1" skillsCsvInput).1).map Profile.skills ≠
      some ["a", "b", "c"] := by decide

/-- C4 amended: skills given as a list is stored unchanged; skills given as
a string is split on commas and each element is trimmed and then prefixed
with a single space, so the spec scenario string is stored as a 3-element
list with a leading space on each element. -/
theorem skills_normalization (ps : List Profile) (uid : String)
    (i : ProfileInput) (hv : validUpsertInput i = true) :
    ∃ q, (upsertProfileHandler ps uid i).1 = UpsertResult.json q ∧
      (∀ l, i.skills = SkillsInput.asList l → q.skills = l) ∧
      (∀ s, i.skills = SkillsInput.asString s →
        q.skills = (jsSplit s ',').map (fun skill => " " ++ jsTrim skill)) := by
  obtain ⟨p0, hp0⟩ := profileUpsert_fst ps uid (buildProfileFields uid i)
  refine ⟨(profileUpsert ps uid (buildProfileFields uid i)).1, ?_, ?_, ?_⟩
  · simp [upsertProfileHandler, hv]
  · intro l hl
    rw [hp0]
    show (buildProfileFields uid i).skills = l
    simp [buildProfileFields, skillsField, hl]
  · intro s hs
    rw [hp0]
    show (buildProfileFields uid i).skills = _
    simp [buildProfileFields, skillsField, hs]

theorem skills_normalization_witness :
    validUpsertInput skillsCsvInput = true ∧
    (∃ q, (upsertProfileHandler [] "u1" skillsCsvInput).1 = UpsertResult.json q ∧
      (∀ l, skillsCsvInput.skills = SkillsInput.asList l → q.skills = l) ∧
      (∀ s, skillsCsvInput.skills = SkillsInput.asString s →
        q.skills = (jsSplit s ',').map (fun skill => " " ++ jsTrim skill))) :=
  ⟨by decide, skills_normalization [] "u1" skillsCsvInput (by decide)⟩

/-- A valid upsert body with no website key at all. -/
def noWebsiteInput : ProfileInput :=
  { status := "dev", skills := SkillsInput.asList ["js"],
    website := none, youtube := none, twitter := none, instagram := none,
    linkedin := none, facebook := none, company := none, location := none,
    bio := none, githubusername := none }

/-- A stored profile with a non-empty website, used to show the overwrite. -/
def oldSiteProfile : Profile :=
  { user := "u1", website := "https://old.example.com", company := none,
    location := none, status := "dev", skills := ["js"], bio := none,
    githubusername := none, experience := [], education := [],
    social := ⟨none, none, none, none, none⟩ }

/-- C10: a valid upsert-profile call whose body has no website key stores
the empty string as the website of the resulting document, for every prior
store, so a previously stored website value is overwritten rather than kept. -/
theorem absent_website_stored_empty (ps : List Profile) (uid : String)
    (i : ProfileInput) (hv : validUpsertInput i = true) (hw : i.website = none) :
    ∃ q, (upsertProfileHandler ps uid i).1 = UpsertResult.json q ∧ q.website = "" ∧
      findProfile (upsertProfileHandler ps uid i).2 uid = some q := by
  have hf : (buildProfileFields uid i).user = uid := rfl
  obtain ⟨p0, hp0⟩ := profileUpsert_fst ps uid (buildProfileFields uid i)
  refine ⟨(profileUpsert ps uid (buildProfileFields uid i)).1, ?_, ?_, ?_⟩
  · simp [upsertProfileHandler, hv]
  · rw [hp0]
    show (buildProfileFields uid i).website = ""
    simp [buildProfileFields, websiteField, hw]
  · have h2 : (upsertProfileHandler ps uid i).2 =
        (profileUpsert ps uid (buildProfileFields uid i)).2 := by
      simp [upsertProfileHandler, hv]
    rw [h2]
    exact findProfile_profileUpsert ps uid _ hf

theorem absent_website_stored_empty_witness :
    validUpsertInput noWebsiteInput = true ∧
    noWebsiteInput.website = none ∧
    oldSiteProfile.website ≠ "" ∧
    (∃ q, (upsertProfileHandler [oldSiteProfile] "u1" noWebsiteInput).1 =
        UpsertResult.json q ∧ q.website = "" ∧
      findProfile (upsertProfileHandler [oldSiteProfile] "u1" noWebsiteInput).2 "u1" = some q) :=
  ⟨by decide, rfl, by decide,
    absent_website_stored_empty [oldSiteProfile] "u1" noWebsiteInput (by decide) rfl⟩

end DevConnector

namespace DevConnector

/-- An experience entry already stored in the sample profile. -/
def sampleExp : Experience :=
  { id := "e1", title := "Intern", company := "Acme", location := none,
    fromDate := "2018-01-01", toDate := some "2019-01-01", current := none,
    description := none }

/-- A second stored experience entry. -/
def sampleExp2 : Experience :=
  { id := "e2", title := "Junior", company := "Acme", location := none,
    fromDate := "2019-02-01", toDate := none, current := none,
    description := none }

/-- A stored profile for user u1 with two experience entries. -/
def sampleProfile : Profile :=
  { user := "u1", website := "", company := none, location := none,
    status := "dev", skills := ["js"], bio := none, githubusername := none,
    experience := [sampleExp, sampleExp2], education := [],
    social := ⟨none, none, none, none, none⟩ }

/-- A valid add-experience body. -/
def sampleExpRequest : ExpRequest :=
  { title := "Engineer", company := "Acme", location := none,
    fromDate := "2020-01-01", toDate := some "2021-01-01", current := none,
    description := none }

/-- C5: a successful add-experience call on an existing Profile makes the
new entry the first element of the experience list, keeps the previously
stored entries behind it in their prior order, persists the document, and
returns the whole updated Profile. -/
theorem add_experience_prepends (ps : List Profile) (uid eid : String)
    (r : ExpRequest) (p : Profile) (hv : validExpRequest r = true)
    (hp : findProfile ps uid = some p) :
    (addExperienceHandler ps uid eid r).1 =
      MutResult.json { p with experience := mkExperience eid r :: p.experience } ∧
    findProfile (addExperienceHandler ps uid eid r).2 uid =
      some { p with experience := mkExperience eid r :: p.experience } := by
  have hu : p.user = uid := findProfile_eq_user hp
  have hh : addExperienceHandler ps uid eid r =
      (MutResult.json { p with experience := mkExperience eid r :: p.experience },
        saveProfile ps { p with experience := mkExperience eid r :: p.experience }) := by
    simp [addExperienceHandler, hv, hp]
  rw [hh]
  refine ⟨rfl, ?_⟩
  have hs := findProfile_saveProfile ps
    { p with experience := mkExperience eid r :: p.experience }
  simpa [hu] using hs

theorem add_experience_prepends_witness :
    validExpRequest sampleExpRequest = true ∧
    findProfile [sampleProfile] "u1" = some sampleProfile ∧
    ((addExperienceHandler [sampleProfile] "u1" "e3" sampleExpRequest).1 =
      MutResult.json
        { sampleProfile with
            experience := mkExperience "e3" sampleExpRequest :: sampleProfile.experience } ∧
    findProfile (addExperienceHandler [sampleProfile] "u1" "e3" sampleExpRequest).2 "u1" =
      some { sampleProfile with
              experience := mkExperience "e3" sampleExpRequest :: sampleProfile.experience }) :=
  ⟨by decide, by decide,
    add_experience_prepends [sampleProfile] "u1" "e3" sampleExpRequest sampleProfile
      (by decide) (by decide)⟩

/-- C6: an add-experience or add-education request whose to date is
supplied (non-empty) while the from date does not compare before it is
rejected with a 400 validation error and the store is left unchanged. -/
theorem from_not_before_to_rejected (ps qs : List Profile)
    (uid1 uid2 eid1 eid2 : String) (re : ExpRequest) (rd : EduRequest)
    (t u : String) (hte : re.toDate = some t) (ht : t ≠ "")
    (hft : jsLt re.fromDate t = false) (hue : rd.toDate = some u)
    (hu : u ≠ "") (hfu : jsLt rd.fromDate u = false) :
    addExperienceHandler ps uid1 eid1 re = (MutResult.validationError, ps) ∧
    addEducationHandler qs uid2 eid2 rd = (MutResult.validationError, qs) := by
  have h1 : validExpRequest re = false := by
    simp [validExpRequest, fromBeforeToOk, hte, ht, hft]
  have h2 : validEduRequest rd = false := by
    simp [validEduRequest, fromBeforeToOk, hue, hu, hfu]
  constructor
  · simp [addExperienceHandler, h1]
  · simp [addEducationHandler, h2]

/-- An add-experience body whose from date is after its to date. -/
def backwardsExpRequest : ExpRequest :=
  { title := "Engineer", company := "Acme", location := none,
    fromDate := "2022-01-01", toDate := some "2021-01-01", current := none,
    description := none }

/-- An add-education body whose from date equals its to date. -/
def backwardsEduRequest : EduRequest :=
  { school := "State", degree := "BS", fieldofstudy := "CS",
    fromDate := "2021-06-01", toDate := some "2021-06-01", current := none,
    description := none }

theorem from_not_before_to_rejected_witness :
    backwardsExpRequest.toDate = some "2021-01-01" ∧
    "2021-01-01" ≠ "" ∧
    jsLt backwardsExpRequest.fromDate "2021-01-01" = false ∧
    backwardsEduRequest.toDate = some "2021-06-01" ∧
    "2021-06-01" ≠ "" ∧
    jsLt backwardsEduRequest.fromDate "2021-06-01" = false ∧
    (addExperienceHandler [sampleProfile] "u1" "e9" backwardsExpRequest =
      (MutResult.validationError, [sampleProfile]) ∧
    addEducationHandler [sampleProfile] "u1" "e9" backwardsEduRequest =
      (MutResult.validationError, [sampleProfile])) :=
  ⟨rfl, by decide, by decide, rfl, by decide, by decide,
    from_not_before_to_rejected [sampleProfile] [sampleProfile] "u1" "u1" "e9" "e9"
      backwardsExpRequest backwardsEduRequest "2021-01-01" "2021-06-01"
      rfl (by decide) (by decide) rfl (by decide) (by decide)⟩

/-- C8: remove-experience filters the experience list by entry id: the
result is a sublist of the old list (order preserved) holding no entry with
the given id and every entry with a different id; when nothing matches, the
call is a no-op that still answers 200 with the unchanged Profile, also in
the store. -/
theorem remove_experience_filter (ps : List Profile) (uid entryId : String)
    (p : Profile) (hp : findProfile ps uid = some p) :
    ∃ p1, (removeExperienceHandler ps uid entryId).1 = MutResult.json p1 ∧
      List.Sublist p1.experience p.experience ∧
      (∀ e ∈ p1.experience, e.id ≠ entryId) ∧
      (∀ e ∈ p.experience, e.id ≠ entryId → e ∈ p1.experience) ∧
      ((∀ e ∈ p.experience, e.id ≠ entryId) →
        (removeExperienceHandler ps uid entryId).1 = MutResult.json p ∧
        findProfile (removeExperienceHandler ps uid entryId).2 uid = some p) := by
  have hu : p.user = uid := findProfile_eq_user hp
  have hh : removeExperienceHandler ps uid entryId =
      (MutResult.json
          { p with experience := p.experience.filter (fun e => e.id != entryId) },
        saveProfile ps
          { p with experience := p.experience.filter (fun e => e.id != entryId) }) := by
    simp [removeExperienceHandler, hp]
  refine ⟨{ p with experience := p.experience.filter (fun e => e.id != entryId) },
    ?_, ?_, ?_, ?_, ?_⟩
  · rw [hh]
  · exact List.filter_sublist p.experience
  · intro e he
    have he2 : e ∈ List.filter (fun e => e.id != entryId) p.experience := he
    have hmem := List.of_mem_filter he2
    simpa using hmem
  · intro e he hne
    show e ∈ List.filter (fun e => e.id != entryId) p.experience
    exact List.mem_filter.mpr ⟨he, by simpa using hne⟩
  · intro hall
    have hfix : p.experience.filter (fun e => e.id != entryId) = p.experience := by
      apply List.filter_eq_self.mpr
      intro e he
      simpa using hall e he
    have hpp : { p with experience := p.experience.filter (fun e => e.id != entryId) } = p := by
      rw [hfix]
    constructor
    · rw [hh]
      simp [hpp]
    · rw [hh]
      show findProfile (saveProfile ps _) uid = some p
      rw [hpp]
      have hs := findProfile_saveProfile ps p
      rwa [hu] at hs

theorem remove_experience_filter_witness :
    findProfile [sampleProfile] "u1" = some sampleProfile ∧
    (∀ e ∈ sampleProfile.experience, e.id ≠ "zzz") ∧
    (∃ p1, (removeExperienceHandler [sampleProfile] "u1" "zzz").1 = MutResult.json p1 ∧
      List.Sublist p1.experience sampleProfile.experience ∧
      (∀ e ∈ p1.experience, e.id ≠ "zzz") ∧
      (∀ e ∈ sampleProfile.experience, e.id ≠ "zzz" → e ∈ p1.experience) ∧
      ((∀ e ∈ sampleProfile.experience, e.id ≠ "zzz") →
        (removeExperienceHandler [sampleProfile] "u1" "zzz").1 = MutResult.json sampleProfile ∧
        findProfile (removeExperienceHandler [sampleProfile] "u1" "zzz").2 "u1" =
          some sampleProfile)) :=
  ⟨by decide, by decide,
    remove_experience_filter [sampleProfile] "u1" "zzz" sampleProfile (by decide)⟩

end DevConnector

namespace DevConnector

/-- C7: get-profile-by-user-id answers the same 404 Profile-not-found
response when the id is malformed and when the id is well-formed but no
Profile is stored for it; there is no distinct bad-id error class. -/
theorem get_profile_uniform_not_found (ps : List Profile) (bad good : String)
    (hb : wellFormedId bad = false) (hg : wellFormedId good = true)
    (ha : findProfile ps good = none) :
    getProfileByUserId ps bad = GetResult.err 404 "Profile not found" ∧
    getProfileByUserId ps good = GetResult.err 404 "Profile not found" ∧
    getProfileByUserId ps bad = getProfileByUserId ps good := by
  have h1 : getProfileByUserId ps bad = GetResult.err 404 "Profile not found" := by
    simp [getProfileByUserId, hb]
  have h2 : getProfileByUserId ps good = GetResult.err 404 "Profile not found" := by
    simp [getProfileByUserId, hg, ha]
  exact ⟨h1, h2, by rw [h1, h2]⟩

theorem get_profile_uniform_not_found_witness :
    wellFormedId "does-not-exist" = false ∧
    wellFormedId "507f1f77bcf86cd799439011" = true ∧
    findProfile [sampleProfile] "507f1f77bcf86cd799439011" = none ∧
    (getProfileByUserId [sampleProfile] "does-not-exist" =
      GetResult.err 404 "Profile not found" ∧
    getProfileByUserId [sampleProfile] "507f1f77bcf86cd799439011" =
      GetResult.err 404 "Profile not found" ∧
    getProfileByUserId [sampleProfile] "does-not-exist" =
      getProfileByUserId [sampleProfile] "507f1f77bcf86cd799439011") :=
  ⟨by decide, by decide, by decide,
    get_profile_uniform_not_found [sampleProfile] "does-not-exist"
      "507f1f77bcf86cd799439011" (by decide) (by decide) (by decide)⟩

/-- C9: every failing GitHub lookup, whatever the failure detail, yields the
one generic 500 response with the fixed message, so no external error
detail reaches the caller. -/
theorem github_failure_generic (d : String) :
    listGithubRepos (GithubOutcome.failed d) =
      GithubResult.err 500 "No GitHub profile found" ∧
    (∀ d2, listGithubRepos (GithubOutcome.failed d) =
      listGithubRepos (GithubOutcome.failed d2)) :=
  ⟨rfl, fun _ => rfl⟩

/-- The store of the C1 scenario: one user, their profile, three posts. -/
def c1Store : Store :=
  { users := [⟨"u1"⟩],
    profiles := [sampleProfile],
    posts := [⟨"p1", "u1"⟩, ⟨"p2", "u1"⟩, ⟨"p3", "u1"⟩] }

/-- C1 evaluation: because profile.js never requires the Post model, the
delete-own-profile handler answers 500 Server Error and removes nothing; it
never reaches the 200 ack of the claim, and afterwards the three posts, the
profile and the user document are all still present in the store. -/
theorem delete_own_profile_bug :
    deleteOwnProfile c1Store "u1" = (⟨500, "Server Error"⟩, c1Store) ∧
    (deleteOwnProfile c1Store "u1").1.status ≠ 200 ∧
    (deleteOwnProfile c1Store "u1").2.posts.countP (fun p => p.user == "u1") = 3 ∧
    findProfile (deleteOwnProfile c1Store "u1").2.profiles "u1" = some sampleProfile ∧
    (deleteOwnProfile c1Store "u1").2.users = [⟨"u1"⟩] := by decide

end DevConnector
